import Mathlib

/-
  Shallow embedding of the calendar-rotation service (rotation engine,
  calendar synchronizer, scheduling workflow and mutation operations).

  Conventions of the embedding:
  - All dates and times live on one abstract Nat scale (days since an
    epoch for period anchors, with the injected clock value on the same
    scale); the reference code compares millisecond timestamps, and the
    design notes require the current time to be an explicit injected
    parameter, which is the Env.now field here.
  - External collaborators (calendar API, credential refresh, id
    generation, clock) are an explicit Env record of pure functions;
    a None result models a thrown or rejected external call.
  - Every operation takes the in-memory store (Data) and returns the
    store after the operation together with an Except result; a thrown
    JS error corresponds to an Except.error paired with the store as it
    stands at the throw site, since JS exceptions do not undo earlier
    field mutations.
-/

namespace CTR

/-- One entry of a group membership list: a user id and its position in the
rotation order. -/
structure Member where
  userId : Nat
  orderPosition : Nat
deriving DecidableEq, Inhabited, Repr

/-- Time of day of the group schedule, split into hour and minute as the
reference code splits the HH:MM string. -/
structure TimeOfDay where
  hour : Nat
  minute : Nat
deriving DecidableEq, Inhabited, Repr

/-- Recurring schedule slot of a group. -/
structure Schedule where
  dayOfWeek : Nat
  timeOfDay : TimeOfDay
deriving DecidableEq, Inhabited, Repr

/-- A rotation group: ordered membership, schedule slot, round-robin cursor. -/
structure Group where
  id : Nat
  name : String
  description : String
  members : List Member
  schedule : Schedule
  currentIndex : Nat
  isActive : Bool
deriving DecidableEq, Inhabited, Repr

/-- One declared skip: the user is ineligible for this group and period. -/
structure SkipWeek where
  userId : Nat
  groupId : Nat
  weekStartDate : Nat
  reason : String
deriving DecidableEq, Inhabited, Repr

/-- External calendar credentials with an expiry instant. -/
structure Tokens where
  accessToken : Nat
  expiry_date : Nat
deriving DecidableEq, Inhabited, Repr

/-- A user record; googleTokens is none until the identity flow stored
credentials. -/
structure User where
  id : Nat
  email : String
  name : String
  googleTokens : Option Tokens
deriving DecidableEq, Inhabited, Repr

/-- One concrete assignment of a user to a group for one period. -/
structure Rotation where
  id : Nat
  groupId : Nat
  assignedUserId : Nat
  weekStartDate : Nat
  calendarEventId : Option Nat
  status : String
  createdAt : Nat
  swappedAt : Option Nat
deriving DecidableEq, Inhabited, Repr

/-- The whole in-memory store. -/
structure Data where
  users : List User
  groups : List Group
  skipWeeks : List SkipWeek
  rotations : List Rotation
deriving DecidableEq, Inhabited, Repr

/-- Start or end instant of a calendar event (seconds are always zero in the
reference code and are omitted). -/
structure EventTime where
  date : Nat
  hour : Nat
  minute : Nat
deriving DecidableEq, Inhabited, Repr

/-- One reminder override attached to an event. -/
structure Reminder where
  method : String
  minutes : Nat
deriving DecidableEq, Inhabited, Repr

/-- The payload handed to the external calendar insert call. -/
structure Event where
  summary : String
  description : String
  startTime : EventTime
  endTime : EventTime
  reminders : List Reminder
deriving DecidableEq, Inhabited, Repr

/-- Error kinds surfaced by the operations, one per distinct thrown message
of the reference code; indexError stands for a JS undefined-element access
and is proved unreachable. -/
inductive Err where
  | groupNotFound
  | noMembers
  | allSkipped
  | notAuthenticated
  | externalFailure
  | notFound
  | indexError
deriving DecidableEq, Repr

/-- The environment of external collaborators: the injected clock, the
credential refresh call, the calendar insert and delete calls, and the id
generator. A none result models a failed external call. -/
structure Env where
  now : Nat
  refresh : Tokens → Option Tokens
  insertEvent : Tokens → Event → Option Nat
  deleteEvent : Tokens → Nat → Option Unit
  freshId : Nat → Nat

/-- Replace the first element satisfying p by its image under f, as JS
mutation of the object returned by find does. -/
def updateFirst (p : α → Bool) (f : α → α) : List α → List α
  | [] => []
  | x :: xs => if p x then f x :: xs else x :: updateFirst p f xs

/-- Stable insertion of a member into a list already sorted by
orderPosition: on ties the inserted element goes after the equals, which is
what a stable sort does with a less-or-equal comparator. -/
def insertMember (m : Member) : List Member → List Member
  | [] => [m]
  | x :: xs =>
      if m.orderPosition < x.orderPosition then m :: x :: xs
      else x :: insertMember m xs

/-- Stable sort of the membership list by orderPosition ascending,
modelling the JS stable comparator sort. -/
def sortMembers : List Member → List Member
  | [] => []
  | m :: ms => insertMember m (sortMembers ms)

/-- Whether a skip record matches the user, group and target period. -/
def hasSkip (d : Data) (uid gid target : Nat) : Bool :=
  d.skipWeeks.any fun s =>
    s.userId == uid && s.groupId == gid && s.weekStartDate == target

/-- The candidate member at round-robin index i of the sorted list; the
reference code always reduces the index modulo the length. -/
def memberAt (sorted : List Member) (i : Nat) : Member :=
  sorted.getD (i % sorted.length) default

/-- Whether the candidate at round-robin index i has no skip for the target
period. -/
def eligibleAt (d : Data) (gid target : Nat) (sorted : List Member) (i : Nat) : Bool :=
  !(hasSkip d (memberAt sorted i).userId gid target)

/-- Result of the candidate scan loop. -/
inductive ScanResult where
  | found (userId : Nat) (finalIndex : Nat)
  | exhausted (finalIndex : Nat)
  | outOfBounds
deriving DecidableEq, Repr

/-- The while loop of getNextRotationAssignment: fuel counts the remaining
attempts (initially the member count), idx is the running currentIndex. An
undefined array access would surface as outOfBounds. -/
def scanLoop (d : Data) (gid target : Nat) (sorted : List Member) : Nat → Nat → ScanResult
  | 0, idx => .exhausted idx
  | fuel + 1, idx =>
    match sorted.get? (idx % sorted.length) with
    | none => .outOfBounds
    | some candidate =>
      if hasSkip d candidate.userId gid target then
        scanLoop d gid target sorted fuel (idx + 1)
      else .found candidate.userId idx

/-- The rotation selector getNextRotationAssignment: looks the group up,
fails on a missing or empty group, scans candidates from the cursor, and on
success writes back the advanced cursor and returns the assignee id. -/
def getNextRotationAssignment (d : Data) (gid target : Nat) : Data × Except Err Nat :=
  match d.groups.find? (fun g => g.id == gid) with
  | none => (d, .error .groupNotFound)
  | some group =>
    if group.members.isEmpty then (d, .error .noMembers)
    else
      let sorted := sortMembers group.members
      match scanLoop d gid target sorted sorted.length group.currentIndex with
      | .outOfBounds => (d, .error .indexError)
      | .exhausted _ => (d, .error .allSkipped)
      | .found uid idx =>
        ({ d with
            groups := updateFirst (fun g => g.id == gid)
              (fun g => { g with currentIndex := (idx + 1) % sorted.length })
              d.groups },
         .ok uid)

/-- The event payload built by createCalendarEvent: start at the period
anchor date at the scheduled time of day, end on the same date at the next
full hour with minutes zeroed, fixed reminder overrides. -/
def buildEvent (group : Group) (weekStartDate : Nat) : Event :=
  { summary := group.name ++ " - Your Turn This Week"
  , description := group.description ++ "\n\nWeek starting: " ++ toString weekStartDate
  , startTime :=
      { date := weekStartDate
      , hour := group.schedule.timeOfDay.hour
      , minute := group.schedule.timeOfDay.minute }
  , endTime :=
      { date := weekStartDate
      , hour := group.schedule.timeOfDay.hour + 1
      , minute := 0 }
  , reminders := [⟨"email", 1440⟩, ⟨"popup", 60⟩] }

/-- The in-place credential replacement performed by the refresh path. -/
def setTokens (t : Tokens) : User → User :=
  fun u => { u with googleTokens := some t }

/-- createCalendarEvent: requires the user present with credentials and the
group present; refreshes expired credentials, storing the refreshed value
before issuing the insert call; returns the new event id. -/
def createCalendarEvent (env : Env) (d : Data) (userId gid weekStartDate : Nat) :
    Data × Except Err Nat :=
  match d.users.find? (fun u => u.id == userId) with
  | none => (d, .error .notAuthenticated)
  | some user =>
    match user.googleTokens with
    | none => (d, .error .notAuthenticated)
    | some tokens =>
      match d.groups.find? (fun g => g.id == gid) with
      | none => (d, .error .groupNotFound)
      | some group =>
        if tokens.expiry_date ≤ env.now then
          match env.refresh tokens with
          | none => (d, .error .externalFailure)
          | some newTokens =>
            let d1 : Data :=
              { d with
                  users := updateFirst (fun u => u.id == userId)
                    (setTokens newTokens) d.users }
            match env.insertEvent newTokens (buildEvent group weekStartDate) with
            | none => (d1, .error .externalFailure)
            | some eventId => (d1, .ok eventId)
        else
          match env.insertEvent tokens (buildEvent group weekStartDate) with
          | none => (d, .error .externalFailure)
          | some eventId => (d, .ok eventId)

/-- deleteCalendarEvent: requires the user present with credentials, then
issues the external delete; never mutates the store. -/
def deleteCalendarEvent (env : Env) (d : Data) (userId eventId : Nat) :
    Data × Except Err Unit :=
  match d.users.find? (fun u => u.id == userId) with
  | none => (d, .error .notAuthenticated)
  | some user =>
    match user.googleTokens with
    | none => (d, .error .notAuthenticated)
    | some tokens =>
      match env.deleteEvent tokens eventId with
      | none => (d, .error .externalFailure)
      | some _ => (d, .ok ())

/-- addWeeks on the abstract day scale: one week is seven days. -/
def addWeeks (dateValue : Nat) (numWeeks : Nat) : Nat :=
  dateValue + 7 * numWeeks

/-- The rotation record appended by iteration i of the trigger loop. -/
def mkRotation (env : Env) (i gid uid target eid : Nat) : Rotation :=
  { id := env.freshId i
  , groupId := gid
  , assignedUserId := uid
  , weekStartDate := target
  , calendarEventId := some eid
  , status := "scheduled"
  , createdAt := env.now
  , swappedAt := none }

/-- The for loop of the trigger handler: i is the current iteration index,
remaining the number of iterations left, acc the created rotations in
reverse order. A selector or calendar failure stops the loop and returns
the store as mutated so far. -/
def triggerLoop (env : Env) (gid startDate : Nat) :
    Nat → Nat → Data → List Rotation → Data × Except Err (List Rotation)
  | _, 0, d, acc => (d, .ok acc.reverse)
  | i, remaining + 1, d, acc =>
    let target := addWeeks startDate i
    match getNextRotationAssignment d gid target with
    | (d1, .error e) => (d1, .error e)
    | (d1, .ok uid) =>
      match createCalendarEvent env d1 uid gid target with
      | (d2, .error e) => (d2, .error e)
      | (d2, .ok eid) =>
        let rot := mkRotation env i gid uid target eid
        triggerLoop env gid startDate (i + 1) remaining
          { d2 with rotations := d2.rotations ++ [rot] } (rot :: acc)

/-- The trigger endpoint: schedule numWeeks consecutive rotations for the
group starting at startDate. -/
def triggerHandler (env : Env) (d : Data) (gid numWeeks startDate : Nat) :
    Data × Except Err (List Rotation) :=
  triggerLoop env gid startDate 0 numWeeks d []

/-- One successful trigger iteration at index i, or none if the selector or
the calendar call fails there. -/
def oneIter (env : Env) (gid startDate i : Nat) (d : Data) : Option Data :=
  let target := addWeeks startDate i
  match getNextRotationAssignment d gid target with
  | (_, .error _) => none
  | (d1, .ok uid) =>
    match createCalendarEvent env d1 uid gid target with
    | (_, .error _) => none
    | (d2, .ok eid) =>
      some { d2 with rotations := d2.rotations ++ [mkRotation env i gid uid target eid] }

/-- Run k consecutive successful trigger iterations starting at index i;
none if any of them fails. -/
def runIters (env : Env) (gid startDate : Nat) : Nat → Nat → Data → Option Data
  | _, 0, d => some d
  | i, k + 1, d =>
    match oneIter env gid startDate i d with
    | none => none
    | some d1 => runIters env gid startDate (i + 1) k d1

/-- The predicate locating the rotation targeted by a swap request. -/
def swapMatch (gid w fromUserId : Nat) (r : Rotation) : Bool :=
  r.groupId == gid && r.weekStartDate == w && r.assignedUserId == fromUserId

/-- The swap endpoint: find the targeted rotation, delete its existing
calendar event, create the replacement event for the new assignee, then
rewrite the rotation in place. The final user lookup mirrors the response
formatting read of the new assignee record. -/
def swapHandler (env : Env) (d : Data) (gid w fromUserId toUserId : Nat) :
    Data × Except Err Rotation :=
  match d.rotations.find? (swapMatch gid w fromUserId) with
  | none => (d, .error .notFound)
  | some rot =>
    let step1 : Data × Except Err Unit :=
      match rot.calendarEventId with
      | some eid => deleteCalendarEvent env d fromUserId eid
      | none => (d, .ok ())
    match step1 with
    | (d1, .error e) => (d1, .error e)
    | (d1, .ok _) =>
      match createCalendarEvent env d1 toUserId gid w with
      | (d2, .error e) => (d2, .error e)
      | (d2, .ok newEventId) =>
        let upd : Rotation → Rotation := fun r =>
          { r with
              assignedUserId := toUserId
            , calendarEventId := some newEventId
            , swappedAt := some env.now }
        let d3 : Data :=
          { d2 with rotations := updateFirst (swapMatch gid w fromUserId) upd d2.rotations }
        match d3.users.find? (fun u => u.id == toUserId) with
        | none => (d3, .error .notFound)
        | some _ => (d3, .ok (upd rot))

/-- The cancel endpoint: find the rotation, delete its calendar event if it
has one (propagating failure without removing the record), then remove the
rotation from the store. -/
def cancelHandler (env : Env) (d : Data) (rotationId : Nat) :
    Data × Except Err Unit :=
  match d.rotations.find? (fun r => r.id == rotationId) with
  | none => (d, .error .notFound)
  | some rot =>
    let step1 : Data × Except Err Unit :=
      match rot.calendarEventId with
      | some eid => deleteCalendarEvent env d rot.assignedUserId eid
      | none => (d, .ok ())
    match step1 with
    | (d1, .error e) => (d1, .error e)
    | (d1, .ok _) =>
      ({ d1 with rotations := d1.rotations.filter (fun r => !(r.id == rotationId)) },
       .ok ())

/-- The predicate selecting the future rotations of a member being removed:
same group, assigned to the user, period anchor not before the injected
current instant. -/
def futureMatch (env : Env) (gid uid : Nat) (r : Rotation) : Bool :=
  r.groupId == gid && r.assignedUserId == uid && env.now ≤ r.weekStartDate

/-- The member-removal endpoint: drop the member from the group, attempt to
delete the calendar event of every matched future rotation with failures
swallowed, remove all matched future rotations regardless of those
outcomes, and report their count; the final user lookup mirrors the
response formatting read of the removed user record. -/
def removeMemberHandler (env : Env) (d : Data) (gid uid : Nat) :
    Data × Except Err Nat :=
  match d.groups.find? (fun g => g.id == gid) with
  | none => (d, .error .groupNotFound)
  | some _ =>
    let d1 : Data :=
      { d with
          groups := updateFirst (fun g => g.id == gid)
            (fun g => { g with members := g.members.filter (fun m => !(m.userId == uid)) })
            d.groups }
    let futureRotations := d1.rotations.filter (futureMatch env gid uid)
    let d2 : Data := futureRotations.foldl
      (fun dd r =>
        match r.calendarEventId with
        | some eid => (deleteCalendarEvent env dd uid eid).1
        | none => dd)
      d1
    let d3 : Data :=
      { d2 with rotations := d2.rotations.filter (fun r => !(futureMatch env gid uid r)) }
    match d3.users.find? (fun u => u.id == uid) with
    | none => (d3, .error .notFound)
    | some _ => (d3, .ok futureRotations.length)

/-- Run one selection per target period in sequence, threading the store;
used to state the round-robin coverage property. -/
def selectMany (d : Data) (gid : Nat) : List Nat → Data × List (Except Err Nat)
  | [] => (d, [])
  | t :: ts =>
    let r1 := getNextRotationAssignment d gid t
    let rest := selectMany r1.1 gid ts
    (rest.1, r1.2 :: rest.2)

/-- Absolute minute count of an event instant, for the one-hour-duration
statements. -/
def absMinutes (t : EventTime) : Nat :=
  t.date * 1440 + t.hour * 60 + t.minute

/-- Transcription of the spec sentence about event timing, used to compare
the spec with the code: start anchored to the period start plus the day
offset implied by dayOfWeek relative to the first day of the period
(weekday number 1), end exactly one hour after the start, fixed reminders. -/
def eventSpecClaimed (g : Group) (periodStart : Nat) (e : Event) : Prop :=
  e.startTime.date = periodStart + (g.schedule.dayOfWeek - 1) ∧
  e.startTime.hour = g.schedule.timeOfDay.hour ∧
  e.startTime.minute = g.schedule.timeOfDay.minute ∧
  absMinutes e.endTime = absMinutes e.startTime + 60 ∧
  e.reminders = [⟨"email", 1440⟩, ⟨"popup", 60⟩]

instance (g : Group) (p : Nat) (e : Event) : Decidable (eventSpecClaimed g p e) := by
  unfold eventSpecClaimed; infer_instance

/-! Shared lemmas about the embedding. -/

theorem insertMember_perm (m : Member) (l : List Member) :
    (insertMember m l).Perm (m :: l) := by
  induction l with
  | nil => simp [insertMember]
  | cons x xs ih =>
    by_cases h : m.orderPosition < x.orderPosition
    · simp [insertMember, h]
    · simp only [insertMember, if_neg h]
      exact ((ih.cons x).trans (List.Perm.swap m x xs))

theorem sortMembers_perm (ms : List Member) : (sortMembers ms).Perm ms := by
  induction ms with
  | nil => simp [sortMembers]
  | cons m ms ih =>
    exact (insertMember_perm m (sortMembers ms)).trans (ih.cons m)

theorem sortMembers_length (ms : List Member) :
    (sortMembers ms).length = ms.length :=
  (sortMembers_perm ms).length_eq

theorem mem_insertMember {y m : Member} {l : List Member} :
    y ∈ insertMember m l ↔ y = m ∨ y ∈ l := by
  rw [(insertMember_perm m l).mem_iff]
  simp

theorem insertMember_pairwise {m : Member} {l : List Member}
    (h : l.Pairwise (fun a b => a.orderPosition ≤ b.orderPosition)) :
    (insertMember m l).Pairwise (fun a b => a.orderPosition ≤ b.orderPosition) := by
  induction l with
  | nil => simp [insertMember]
  | cons x xs ih =>
    rcases List.pairwise_cons.mp h with ⟨hx, hxs⟩
    by_cases hlt : m.orderPosition < x.orderPosition
    · simp only [insertMember, if_pos hlt]
      refine List.pairwise_cons.mpr ⟨?_, h⟩
      intro y hy
      rcases List.mem_cons.mp hy with rfl | hy
      · exact Nat.le_of_lt hlt
      · exact Nat.le_trans (Nat.le_of_lt hlt) (hx y hy)
    · simp only [insertMember, if_neg hlt]
      refine List.pairwise_cons.mpr ⟨?_, ih hxs⟩
      intro y hy
      rcases mem_insertMember.mp hy with rfl | hy
      · exact Nat.le_of_not_lt hlt
      · exact hx y hy

theorem sortMembers_pairwise (ms : List Member) :
    (sortMembers ms).Pairwise (fun a b => a.orderPosition ≤ b.orderPosition) := by
  induction ms with
  | nil => simp [sortMembers]
  | cons m ms ih => exact insertMember_pairwise ih

theorem updateFirst_split {p : α → Bool} (f : α → α) {xs : List α} {x : α}
    (h : xs.find? p = some x) :
    ∃ pre post, xs = pre ++ x :: post ∧ (∀ y ∈ pre, p y = false) ∧ p x = true ∧
      updateFirst p f xs = pre ++ f x :: post := by
  induction xs with
  | nil => simp [List.find?] at h
  | cons a xs ih =>
    by_cases hp : p a
    · have hax : a = x := by
        rw [List.find?_cons_of_pos _ hp] at h
        exact Option.some.inj h
      subst hax
      exact ⟨[], xs, rfl, by simp, hp, by simp [updateFirst, hp]⟩
    · rw [List.find?_cons_of_neg _ hp] at h
      rcases ih h with ⟨pre, post, hsplit, hpre, hpx, hupd⟩
      refine ⟨a :: pre, post, by simp [hsplit], ?_, hpx, ?_⟩
      · intro y hy
        rcases List.mem_cons.mp hy with rfl | hy
        · exact Bool.eq_false_iff.mpr hp
        · exact hpre y hy
      · simp [updateFirst, hp, hupd]

theorem find?_append_left {p : α → Bool} {pre : List α}
    (hpre : ∀ y ∈ pre, p y = false) (l : List α) :
    (pre ++ l).find? p = l.find? p := by
  induction pre with
  | nil => rfl
  | cons a pre ih =>
    have ha : ¬ p a := by simpa using hpre a (List.mem_cons_self a pre)
    simp only [List.cons_append, List.find?_cons_of_neg _ ha]
    exact ih (fun y hy => hpre y (List.mem_cons_of_mem a hy))

theorem find?_updateFirst {p : α → Bool} {f : α → α} {xs : List α} {x : α}
    (h : xs.find? p = some x) (hf : p (f x) = true) :
    (updateFirst p f xs).find? p = some (f x) := by
  rcases updateFirst_split f h with ⟨pre, post, _, hpre, _, hupd⟩
  rw [hupd, find?_append_left hpre, List.find?_cons_of_pos _ hf]

theorem memberAt_mod (s : List Member) (i : Nat) :
    memberAt s (i % s.length) = memberAt s i := by
  unfold memberAt
  rw [Nat.mod_mod_of_dvd i dvd_rfl]

theorem memberAt_mem {s : List Member} (h : s ≠ []) (i : Nat) :
    memberAt s i ∈ s := by
  have hlt : i % s.length < s.length := Nat.mod_lt _ (List.length_pos.mpr h)
  unfold memberAt
  rw [List.getD_eq_getElem s default hlt]
  exact List.getElem_mem hlt

theorem get?_eq_memberAt {s : List Member} (h : s ≠ []) (idx : Nat) :
    s.get? (idx % s.length) = some (memberAt s idx) := by
  have hlt : idx % s.length < s.length := Nat.mod_lt _ (List.length_pos.mpr h)
  rw [List.get?_eq_get hlt]
  unfold memberAt
  rw [List.getD_eq_getElem s default hlt]
  rfl

theorem scanLoop_ne_oob {d : Data} {gid target : Nat} {s : List Member}
    (h : s ≠ []) : ∀ fuel idx, scanLoop d gid target s fuel idx ≠ .outOfBounds := by
  intro fuel
  induction fuel with
  | zero => intro idx; simp [scanLoop]
  | succ n ih =>
    intro idx
    simp only [scanLoop, get?_eq_memberAt h idx]
    by_cases hs : hasSkip d (memberAt s idx).userId gid target
    · simpa [hs] using ih (idx + 1)
    · simp [hs]

theorem scanLoop_found {d : Data} {gid target : Nat} {s : List Member}
    (h : s ≠ []) : ∀ fuel j idx, j < fuel →
    (∀ k, k < j → eligibleAt d gid target s (idx + k) = false) →
    eligibleAt d gid target s (idx + j) = true →
    scanLoop d gid target s fuel idx =
      .found (memberAt s (idx + j)).userId (idx + j) := by
  intro fuel
  induction fuel with
  | zero => intro j idx hj _ _; exact absurd hj (Nat.not_lt_zero j)
  | succ n ih =>
    intro j idx hj hmin helig
    simp only [scanLoop, get?_eq_memberAt h idx]
    cases j with
    | zero =>
      have hns : hasSkip d (memberAt s idx).userId gid target = false := by
        have h1 := helig
        simp only [eligibleAt, Nat.add_zero] at h1
        simpa using h1
      simp [hns]
    | succ j' =>
      have hskip : hasSkip d (memberAt s idx).userId gid target = true := by
        have h0 := hmin 0 (Nat.succ_pos j')
        simp only [eligibleAt, Nat.add_zero] at h0
        simpa using h0
      simp only [hskip, if_pos rfl, if_true]
      have hrec := ih j' (idx + 1) (Nat.lt_of_succ_lt_succ hj)
        (fun k hk => by
          have := hmin (k + 1) (Nat.succ_lt_succ hk)
          simpa [Nat.add_assoc, Nat.add_comm 1 k] using this)
        (by simpa [Nat.add_assoc, Nat.add_comm 1 j'] using helig)
      simpa [Nat.add_assoc, Nat.add_comm 1 j'] using hrec

theorem scanLoop_exhausted {d : Data} {gid target : Nat} {s : List Member}
    (h : s ≠ []) : ∀ fuel idx,
    (∀ k, k < fuel → eligibleAt d gid target s (idx + k) = false) →
    scanLoop d gid target s fuel idx = .exhausted (idx + fuel) := by
  intro fuel
  induction fuel with
  | zero => intro idx _; simp [scanLoop]
  | succ n ih =>
    intro idx hall
    simp only [scanLoop, get?_eq_memberAt h idx]
    have hskip : hasSkip d (memberAt s idx).userId gid target = true := by
      have h0 := hall 0 (Nat.succ_pos n)
      simp only [eligibleAt, Nat.add_zero] at h0
      simpa using h0
    simp only [hskip, if_pos rfl, if_true]
    have hrec := ih (idx + 1)
      (fun k hk => by
        have := hall (k + 1) (Nat.succ_lt_succ hk)
        simpa [Nat.add_assoc, Nat.add_comm 1 k] using this)
    rw [hrec]
    congr 1
    omega

theorem sortMembers_ne_nil {ms : List Member} (h : ms ≠ []) :
    sortMembers ms ≠ [] := by
  intro hnil
  apply h
  have hl := sortMembers_length ms
  rw [hnil] at hl
  exact List.length_eq_zero.mp hl.symm

theorem getNext_found_eq {d : Data} {gid target : Nat} {g : Group}
    (hfind : d.groups.find? (fun x => x.id == gid) = some g)
    (hne : g.members ≠ []) {j : Nat}
    (hj : j < (sortMembers g.members).length)
    (hmin : ∀ k, k < j →
      eligibleAt d gid target (sortMembers g.members) (g.currentIndex + k) = false)
    (helig : eligibleAt d gid target (sortMembers g.members) (g.currentIndex + j) = true) :
    getNextRotationAssignment d gid target =
      ({ d with
          groups := updateFirst (fun x => x.id == gid)
            (fun x => { x with
              currentIndex := (g.currentIndex + j + 1) % (sortMembers g.members).length })
            d.groups },
       .ok (memberAt (sortMembers g.members) (g.currentIndex + j)).userId) := by
  have hsne := sortMembers_ne_nil hne
  have hscan := scanLoop_found hsne (sortMembers g.members).length j g.currentIndex hj hmin helig
  have hempty : g.members.isEmpty = false := by
    cases hm : g.members with
    | nil => exact absurd hm hne
    | cons a l => rfl
  simp [getNextRotationAssignment, hfind, hempty, hscan]

theorem getNext_allSkipped {d : Data} {gid target : Nat} {g : Group}
    (hfind : d.groups.find? (fun x => x.id == gid) = some g)
    (hne : g.members ≠ [])
    (hall : ∀ k, k < (sortMembers g.members).length →
      eligibleAt d gid target (sortMembers g.members) (g.currentIndex + k) = false) :
    getNextRotationAssignment d gid target = (d, .error .allSkipped) := by
  have hsne := sortMembers_ne_nil hne
  have hscan := scanLoop_exhausted hsne (sortMembers g.members).length g.currentIndex hall
  have hempty : g.members.isEmpty = false := by
    cases hm : g.members with
    | nil => exact absurd hm hne
    | cons a l => rfl
  simp [getNextRotationAssignment, hfind, hempty, hscan]

theorem getNext_noMembers {d : Data} {gid target : Nat} {g : Group}
    (hfind : d.groups.find? (fun x => x.id == gid) = some g)
    (hm : g.members = []) :
    getNextRotationAssignment d gid target = (d, .error .noMembers) := by
  simp [getNextRotationAssignment, hfind, hm]

theorem getNext_shape (d : Data) (gid target : Nat) :
    ∃ gs, (getNextRotationAssignment d gid target).1 = { d with groups := gs } := by
  rcases hf : d.groups.find? (fun g => g.id == gid) with _ | g
  · exact ⟨d.groups, by simp [getNextRotationAssignment, hf]⟩
  · by_cases hm : g.members.isEmpty
    · exact ⟨d.groups, by simp [getNextRotationAssignment, hf, hm]⟩
    · cases hs : scanLoop d gid target (sortMembers g.members)
        (sortMembers g.members).length g.currentIndex with
      | found uid idx =>
        refine ⟨updateFirst (fun x => x.id == gid)
          (fun x => { x with currentIndex := (idx + 1) % (sortMembers g.members).length })
          d.groups, ?_⟩
        simp [getNextRotationAssignment, hf, hm, hs]
      | exhausted idx => exact ⟨d.groups, by simp [getNextRotationAssignment, hf, hm, hs]⟩
      | outOfBounds => exact ⟨d.groups, by simp [getNextRotationAssignment, hf, hm, hs]⟩

theorem getNext_error_fst {d : Data} {gid target : Nat} {e : Err}
    (h : (getNextRotationAssignment d gid target).2 = .error e) :
    (getNextRotationAssignment d gid target).1 = d := by
  rcases hf : d.groups.find? (fun g => g.id == gid) with _ | g
  · simp [getNextRotationAssignment, hf]
  · by_cases hm : g.members.isEmpty
    · simp [getNextRotationAssignment, hf, hm]
    · cases hs : scanLoop d gid target (sortMembers g.members)
        (sortMembers g.members).length g.currentIndex with
      | found uid idx => simp [getNextRotationAssignment, hf, hm, hs] at h
      | exhausted idx => simp [getNextRotationAssignment, hf, hm, hs]
      | outOfBounds => simp [getNextRotationAssignment, hf, hm, hs]

theorem getNext_users (d : Data) (gid target : Nat) :
    (getNextRotationAssignment d gid target).1.users = d.users := by
  rcases getNext_shape d gid target with ⟨gs, h⟩
  rw [h]

theorem getNext_skipWeeks (d : Data) (gid target : Nat) :
    (getNextRotationAssignment d gid target).1.skipWeeks = d.skipWeeks := by
  rcases getNext_shape d gid target with ⟨gs, h⟩
  rw [h]

theorem getNext_rotations (d : Data) (gid target : Nat) :
    (getNextRotationAssignment d gid target).1.rotations = d.rotations := by
  rcases getNext_shape d gid target with ⟨gs, h⟩
  rw [h]

theorem create_shape (env : Env) (d : Data) (uid gid p : Nat) :
    ∃ us, (createCalendarEvent env d uid gid p).1 = { d with users := us } := by
  rcases hu : d.users.find? (fun u => u.id == uid) with _ | user
  · exact ⟨d.users, by simp [createCalendarEvent, hu]⟩
  · rcases ht : user.googleTokens with _ | tokens
    · exact ⟨d.users, by simp [createCalendarEvent, hu, ht]⟩
    · rcases hg : d.groups.find? (fun g => g.id == gid) with _ | group
      · exact ⟨d.users, by simp [createCalendarEvent, hu, ht, hg]⟩
      · by_cases hexp : tokens.expiry_date ≤ env.now
        · rcases hr : env.refresh tokens with _ | newTokens
          · exact ⟨d.users, by simp [createCalendarEvent, hu, ht, hg, hexp, hr]⟩
          · refine ⟨updateFirst (fun u => u.id == uid) (setTokens newTokens) d.users, ?_⟩
            rcases hi : env.insertEvent newTokens (buildEvent group p) with _ | eid
            · simp [createCalendarEvent, hu, ht, hg, hexp, hr, hi]
            · simp [createCalendarEvent, hu, ht, hg, hexp, hr, hi]
        · rcases hi : env.insertEvent tokens (buildEvent group p) with _ | eid
          · exact ⟨d.users, by simp [createCalendarEvent, hu, ht, hg, hexp, hi]⟩
          · exact ⟨d.users, by simp [createCalendarEvent, hu, ht, hg, hexp, hi]⟩

theorem create_groups (env : Env) (d : Data) (uid gid p : Nat) :
    (createCalendarEvent env d uid gid p).1.groups = d.groups := by
  rcases create_shape env d uid gid p with ⟨us, h⟩
  rw [h]

theorem create_skipWeeks (env : Env) (d : Data) (uid gid p : Nat) :
    (createCalendarEvent env d uid gid p).1.skipWeeks = d.skipWeeks := by
  rcases create_shape env d uid gid p with ⟨us, h⟩
  rw [h]

theorem create_rotations (env : Env) (d : Data) (uid gid p : Nat) :
    (createCalendarEvent env d uid gid p).1.rotations = d.rotations := by
  rcases create_shape env d uid gid p with ⟨us, h⟩
  rw [h]

theorem delete_fst (env : Env) (d : Data) (uid eid : Nat) :
    (deleteCalendarEvent env d uid eid).1 = d := by
  rcases hu : d.users.find? (fun u => u.id == uid) with _ | user
  · simp [deleteCalendarEvent, hu]
  · rcases ht : user.googleTokens with _ | tokens
    · simp [deleteCalendarEvent, hu, ht]
    · rcases he : env.deleteEvent tokens eid with _ | u
      · simp [deleteCalendarEvent, hu, ht, he]
      · simp [deleteCalendarEvent, hu, ht, he]

theorem create_users_cases (env : Env) (d : Data) (uid gid p : Nat) :
    (createCalendarEvent env d uid gid p).1.users = d.users ∨
    ∃ t, (createCalendarEvent env d uid gid p).1.users =
      updateFirst (fun u => u.id == uid) (setTokens t) d.users := by
  rcases hu : d.users.find? (fun u => u.id == uid) with _ | user
  · exact Or.inl (by simp [createCalendarEvent, hu])
  · rcases ht : user.googleTokens with _ | tokens
    · exact Or.inl (by simp [createCalendarEvent, hu, ht])
    · rcases hg : d.groups.find? (fun g => g.id == gid) with _ | group
      · exact Or.inl (by simp [createCalendarEvent, hu, ht, hg])
      · by_cases hexp : tokens.expiry_date ≤ env.now
        · rcases hr : env.refresh tokens with _ | newTokens
          · exact Or.inl (by simp [createCalendarEvent, hu, ht, hg, hexp, hr])
          · refine Or.inr ⟨newTokens, ?_⟩
            rcases hi : env.insertEvent newTokens (buildEvent group p) with _ | eid
            · simp [createCalendarEvent, hu, ht, hg, hexp, hr, hi]
            · simp [createCalendarEvent, hu, ht, hg, hexp, hr, hi]
        · rcases hi : env.insertEvent tokens (buildEvent group p) with _ | eid
          · exact Or.inl (by simp [createCalendarEvent, hu, ht, hg, hexp, hi])
          · exact Or.inl (by simp [createCalendarEvent, hu, ht, hg, hexp, hi])

theorem create_ok_user_find {env : Env} {d : Data} {uid gid p : Nat} {d' : Data}
    {eid : Nat} (h : createCalendarEvent env d uid gid p = (d', .ok eid)) :
    ∃ usr, d'.users.find? (fun u => u.id == uid) = some usr := by
  rcases hu : d.users.find? (fun u => u.id == uid) with _ | user
  · simp [createCalendarEvent, hu] at h
  · rcases ht : user.googleTokens with _ | tokens
    · simp [createCalendarEvent, hu, ht] at h
    · rcases hg : d.groups.find? (fun g => g.id == gid) with _ | group
      · simp [createCalendarEvent, hu, ht, hg] at h
      · by_cases hexp : tokens.expiry_date ≤ env.now
        · rcases hr : env.refresh tokens with _ | newTokens
          · simp [createCalendarEvent, hu, ht, hg, hexp, hr] at h
          · rcases hi : env.insertEvent newTokens (buildEvent group p) with _ | e0
            · simp [createCalendarEvent, hu, ht, hg, hexp, hr, hi] at h
            · have hd' : d' =
                  { d with users := (updateFirst (fun u => u.id == uid)
                      (setTokens newTokens) d.users) } := by
                have h2 := h
                simp [createCalendarEvent, hu, ht, hg, hexp, hr, hi] at h2
                exact h2.1.symm
              refine ⟨setTokens newTokens user, ?_⟩
              rw [hd']
              refine find?_updateFirst hu ?_
              have hpu := List.find?_some hu
              simpa [setTokens] using hpu
        · rcases hi : env.insertEvent tokens (buildEvent group p) with _ | e0
          · simp [createCalendarEvent, hu, ht, hg, hexp, hi] at h
          · have hd' : d' = d := by
              have := h
              simp [createCalendarEvent, hu, ht, hg, hexp, hi] at this
              exact this.1.symm
            exact ⟨user, by rw [hd']; exact hu⟩

theorem memberAt_eq_of_mod {s : List Member} {i j : Nat}
    (h : i % s.length = j % s.length) : memberAt s i = memberAt s j := by
  unfold memberAt
  rw [h]

theorem rotate_eq_map_range {s : List Member} (h : s ≠ []) (c : Nat) :
    s.rotate c = (List.range s.length).map (fun k => memberAt s (c + k)) := by
  have hpos : 0 < s.length := List.length_pos.mpr h
  apply List.ext_get
  · simp
  · intro n h1 h2
    rw [List.get_rotate]
    have hr : ((List.range s.length).map (fun k => memberAt s (c + k))).get ⟨n, h2⟩
        = memberAt s (c + n) := by
      simp
    rw [hr]
    have hm : (n + c) % s.length < s.length := Nat.mod_lt _ hpos
    unfold memberAt
    rw [List.getD_eq_getElem s default (Nat.mod_lt _ hpos)]
    simp only [List.get_eq_getElem]
    congr 1
    simp [Nat.add_comm n c]

theorem getNext_noskip (d : Data) (gid t : Nat) (g : Group)
    (hskip : d.skipWeeks = [])
    (hfind : d.groups.find? (fun x => x.id == gid) = some g)
    (hne : g.members ≠ []) :
    getNextRotationAssignment d gid t =
      ({ d with
          groups := (updateFirst (fun x => x.id == gid)
            (fun x => { x with
              currentIndex := (g.currentIndex + 1) % (sortMembers g.members).length })
            d.groups) },
       .ok (memberAt (sortMembers g.members) g.currentIndex).userId) := by
  have hj : 0 < (sortMembers g.members).length := by
    rw [sortMembers_length]
    exact List.length_pos.mpr hne
  have helig : eligibleAt d gid t (sortMembers g.members) (g.currentIndex + 0) = true := by
    simp [eligibleAt, hasSkip, hskip]
  have h0 := getNext_found_eq hfind hne hj (fun k hk => absurd hk (Nat.not_lt_zero k)) helig
  simpa using h0

theorem selectMany_noskip :
    ∀ (targets : List Nat) (d : Data) (gid : Nat) (g : Group),
    d.skipWeeks = [] →
    d.groups.find? (fun x => x.id == gid) = some g →
    g.members ≠ [] →
    (selectMany d gid targets).2 =
      (List.range targets.length).map
        (fun k => (Except.ok
          (memberAt (sortMembers g.members) (g.currentIndex + k)).userId : Except Err Nat)) := by
  intro targets
  induction targets with
  | nil => intro d gid g _ _ _; simp [selectMany]
  | cons t ts ih =>
    intro d gid g hskip hfind hne
    have hstep := getNext_noskip d gid t g hskip hfind hne
    have hpg : (g.id == gid) = true := by simpa using List.find?_some hfind
    have hfind1 := @find?_updateFirst Group (fun x => x.id == gid)
      (fun x => { x with
        currentIndex := (g.currentIndex + 1) % (sortMembers g.members).length })
      d.groups g hfind (by simpa using hpg)
    have hrec := ih
      ({ d with
          groups := (updateFirst (fun x => x.id == gid)
            (fun x => { x with
              currentIndex := (g.currentIndex + 1) % (sortMembers g.members).length })
            d.groups) })
      gid
      ({ g with currentIndex := (g.currentIndex + 1) % (sortMembers g.members).length })
      hskip hfind1 hne
    simp only [selectMany, hstep, hrec]
    simp only [List.length_cons]
    rw [List.range_succ_eq_map, List.map_cons, List.map_map]
    refine congrArg₂ _ (by simp) ?_
    apply List.map_congr_left
    intro k _
    simp only [Function.comp]
    have hmod : ((g.currentIndex + 1) % (sortMembers g.members).length + k)
        % (sortMembers g.members).length
        = (g.currentIndex + Nat.succ k) % (sortMembers g.members).length := by
      rw [Nat.mod_add_mod]
      congr 1
      omega
    rw [memberAt_eq_of_mod hmod]

/-! Concrete example data for the claims. -/

deriving instance DecidableEq for Except

/-- Three-member group A, B, C at positions 0, 1, 2 with cursor 1. -/
def exC1Group : Group :=
  { id := 1, name := "g", description := "d"
  , members := [⟨10, 0⟩, ⟨20, 1⟩, ⟨30, 2⟩]
  , schedule := ⟨1, ⟨9, 0⟩⟩, currentIndex := 1, isActive := true }

/-- Store holding exC1Group and a skip of B for period 100. -/
def exC1Data : Data :=
  { users := [], groups := [exC1Group]
  , skipWeeks := [⟨20, 1, 100, "away"⟩], rotations := [] }

/-- The store after the selection of C: cursor back to 0. -/
def exC1DataAfter : Data :=
  { exC1Data with groups := [{ exC1Group with currentIndex := 0 }] }

/-- C1. The selector sorts members by orderPosition, scans candidates
round-robin from the cursor, assigns the first candidate without a matching
skip week and writes back the cursor just past the assignee modulo the
member count; with no skip weeks, as many consecutive selections as there
are members reproduce the sorted member list rotated to start at the
cursor, hence visit every member exactly once; and on the concrete
three-member example with cursor 1 and B skipped, C is assigned, the new
cursor is 0, and a second call for another period assigns A. -/
theorem claim_C1_selector_round_robin :
    (∀ (d : Data) (gid target : Nat) (g : Group) (j : Nat),
      d.groups.find? (fun x => x.id == gid) = some g →
      g.members ≠ [] →
      j < (sortMembers g.members).length →
      (∀ k, k < j →
        eligibleAt d gid target (sortMembers g.members) (g.currentIndex + k) = false) →
      eligibleAt d gid target (sortMembers g.members) (g.currentIndex + j) = true →
      getNextRotationAssignment d gid target =
        ({ d with
            groups := (updateFirst (fun x => x.id == gid)
              (fun x => { x with currentIndex :=
                ((g.currentIndex + j) % (sortMembers g.members).length + 1)
                  % (sortMembers g.members).length })
              d.groups) },
         Except.ok (memberAt (sortMembers g.members) (g.currentIndex + j)).userId))
    ∧ (∀ ms : List Member,
        (sortMembers ms).Pairwise (fun a b => a.orderPosition ≤ b.orderPosition)
        ∧ (sortMembers ms).Perm ms)
    ∧ (∀ (d : Data) (gid : Nat) (g : Group) (targets : List Nat),
        d.skipWeeks = [] →
        d.groups.find? (fun x => x.id == gid) = some g →
        g.members ≠ [] →
        targets.length = (sortMembers g.members).length →
        (selectMany d gid targets).2 =
          ((sortMembers g.members).rotate g.currentIndex).map
            (fun m => (Except.ok m.userId : Except Err Nat))
        ∧ ((sortMembers g.members).rotate g.currentIndex).Perm g.members)
    ∧ (getNextRotationAssignment exC1Data 1 100 = (exC1DataAfter, Except.ok 30)
        ∧ (getNextRotationAssignment exC1DataAfter 1 107).2 = Except.ok 10) := by
  refine ⟨?_, ?_, ?_, ?_⟩
  · intro d gid target g j hfind hne hj hmin helig
    have h := getNext_found_eq hfind hne hj hmin helig
    rw [h]
    simp [Nat.mod_add_mod]
  · intro ms
    exact ⟨sortMembers_pairwise ms, sortMembers_perm ms⟩
  · intro d gid g targets hskip hfind hne htl
    have hsne := sortMembers_ne_nil hne
    have hsel := selectMany_noskip targets d gid g hskip hfind hne
    constructor
    · rw [hsel, htl, rotate_eq_map_range hsne g.currentIndex, List.map_map]
      rfl
    · exact ((sortMembers g.members).rotate_perm g.currentIndex).trans
        (sortMembers_perm g.members)
  · exact ⟨by decide, by decide⟩

/-- Witness for C1: the round-robin clause applied to the concrete
three-member group with no skips and three target periods. -/
theorem claim_C1_witness :
    ({ exC1Data with skipWeeks := [] } : Data).skipWeeks = []
    ∧ ({ exC1Data with skipWeeks := [] } : Data).groups.find?
        (fun x => x.id == 1) = some exC1Group
    ∧ exC1Group.members ≠ []
    ∧ ([100, 107, 114] : List Nat).length = (sortMembers exC1Group.members).length
    ∧ ((selectMany { exC1Data with skipWeeks := [] } 1 [100, 107, 114]).2 =
        ((sortMembers exC1Group.members).rotate exC1Group.currentIndex).map
          (fun m => (Except.ok m.userId : Except Err Nat))
      ∧ ((sortMembers exC1Group.members).rotate exC1Group.currentIndex).Perm
          exC1Group.members) :=
  ⟨rfl, rfl, by decide, by decide,
    claim_C1_selector_round_robin.2.2.1 { exC1Data with skipWeeks := [] } 1 exC1Group
      [100, 107, 114] rfl rfl (by decide) (by decide)⟩

/-- Single-member group whose member is skipped for period 100. -/
def exC2Group : Group :=
  { id := 1, name := "g", description := "d", members := [⟨20, 0⟩]
  , schedule := ⟨1, ⟨9, 0⟩⟩, currentIndex := 0, isActive := true }

/-- Store holding exC2Group and the skip of its only member. -/
def exC2Data : Data :=
  { users := [], groups := [exC2Group]
  , skipWeeks := [⟨20, 1, 100, "away"⟩], rotations := [] }

/-- C2. The selector fails with the empty-group error when the group has no
members and with the all-skipped error when every member has a skip week
for the target period, and in both failure cases the returned store is the
input store unchanged, cursor included. -/
theorem claim_C2_selector_failures :
    ∀ (d : Data) (gid target : Nat) (g : Group),
    d.groups.find? (fun x => x.id == gid) = some g →
    (g.members = [] →
      getNextRotationAssignment d gid target = (d, Except.error Err.noMembers))
    ∧ (g.members ≠ [] →
      (∀ m ∈ g.members, hasSkip d m.userId gid target = true) →
      getNextRotationAssignment d gid target = (d, Except.error Err.allSkipped)) := by
  intro d gid target g hfind
  constructor
  · intro hm
    exact getNext_noMembers hfind hm
  · intro hne hall
    have hsne := sortMembers_ne_nil hne
    refine getNext_allSkipped hfind hne ?_
    intro k _
    have hmem : memberAt (sortMembers g.members) (g.currentIndex + k) ∈ g.members :=
      (sortMembers_perm g.members).mem_iff.mp (memberAt_mem hsne _)
    have hm := hall _ hmem
    simp [eligibleAt, hm]

/-- Witness for C2: the single skipped member makes the selector fail with
the all-skipped error and leave the store exactly as passed in. -/
theorem claim_C2_witness :
    exC2Data.groups.find? (fun x => x.id == 1) = some exC2Group
    ∧ exC2Group.members ≠ []
    ∧ (∀ m ∈ exC2Group.members, hasSkip exC2Data m.userId 1 100 = true)
    ∧ getNextRotationAssignment exC2Data 1 100 = (exC2Data, Except.error Err.allSkipped) :=
  ⟨rfl, by decide, by decide,
    (claim_C2_selector_failures exC2Data 1 100 exC2Group rfl).2 (by decide) (by decide)⟩

/-- Two-member group with a stale cursor larger than the member count. -/
def exC9Group : Group :=
  { id := 1, name := "g", description := "d", members := [⟨10, 0⟩, ⟨20, 1⟩]
  , schedule := ⟨1, ⟨9, 0⟩⟩, currentIndex := 5, isActive := true }

/-- Store holding exC9Group with no skips. -/
def exC9Data : Data :=
  { users := [], groups := [exC9Group], skipWeeks := [], rotations := [] }

/-- The store after the selection: cursor rewritten to 0. -/
def exC9After : Data :=
  { exC9Data with groups := [{ exC9Group with currentIndex := 0 }] }

/-- C9. For a nonempty group the selector is well defined for every stored
cursor value, including values at or beyond the member count: it never
trips the out-of-bounds error because every candidate access is reduced
modulo the member count, and whenever it succeeds the cursor written back
is strictly below the member count. -/
theorem claim_C9_selector_total :
    ∀ (d : Data) (gid target : Nat) (g : Group),
    d.groups.find? (fun x => x.id == gid) = some g →
    g.members ≠ [] →
    (getNextRotationAssignment d gid target).2 ≠ Except.error Err.indexError
    ∧ (∀ d2 uid, getNextRotationAssignment d gid target = (d2, Except.ok uid) →
        ∃ g2, d2.groups.find? (fun x => x.id == gid) = some g2
          ∧ g2.members = g.members ∧ g2.currentIndex < g.members.length) := by
  intro d gid target g hfind hne
  have hsne := sortMembers_ne_nil hne
  have hempty : g.members.isEmpty = false := by
    cases hm : g.members with
    | nil => exact absurd hm hne
    | cons a l => rfl
  have hpos : 0 < (sortMembers g.members).length := List.length_pos.mpr hsne
  cases hs : scanLoop d gid target (sortMembers g.members)
      (sortMembers g.members).length g.currentIndex with
  | outOfBounds => exact absurd hs (scanLoop_ne_oob hsne _ _)
  | exhausted idx =>
    constructor
    · simp [getNextRotationAssignment, hfind, hempty, hs]
    · intro d2 uid h
      simp [getNextRotationAssignment, hfind, hempty, hs] at h
  | found uid idx =>
    constructor
    · simp [getNextRotationAssignment, hfind, hempty, hs]
    · intro d2 uid2 h
      simp only [getNextRotationAssignment, hfind, hempty, Bool.false_eq_true,
        if_false, hs, Prod.mk.injEq] at h
      obtain ⟨hd2, _⟩ := h
      have hpg : (g.id == gid) = true := by simpa using List.find?_some hfind
      refine ⟨{ g with
          currentIndex := (idx + 1) % (sortMembers g.members).length }, ?_, rfl, ?_⟩
      · rw [← hd2]
        exact @find?_updateFirst Group (fun x => x.id == gid)
          (fun x => { x with
            currentIndex := (idx + 1) % (sortMembers g.members).length })
          d.groups g hfind (by simpa using hpg)
      · show (idx + 1) % (sortMembers g.members).length < g.members.length
        rw [← sortMembers_length g.members]
        exact Nat.mod_lt _ hpos

/-- Witness for C9: a stale cursor of 5 on a two-member group still selects
a member and writes back cursor 0. -/
theorem claim_C9_witness :
    exC9Data.groups.find? (fun x => x.id == 1) = some exC9Group
    ∧ exC9Group.members ≠ []
    ∧ getNextRotationAssignment exC9Data 1 100 = (exC9After, Except.ok 20)
    ∧ (∃ g2, exC9After.groups.find? (fun x => x.id == 1) = some g2
        ∧ g2.members = exC9Group.members
        ∧ g2.currentIndex < exC9Group.members.length) :=
  ⟨rfl, by decide, by decide,
    (claim_C9_selector_total exC9Data 1 100 exC9Group rfl (by decide)).2
      exC9After 20 (by decide)⟩

/-- Group scheduled at 09:30 on the first weekday: the claimed one-hour
duration fails because the end minutes are zeroed. -/
def exC4GroupA : Group :=
  { id := 1, name := "g", description := "d", members := []
  , schedule := ⟨1, ⟨9, 30⟩⟩, currentIndex := 0, isActive := true }

/-- Group scheduled on weekday 3 at 09:00: the claimed day offset fails
because the code anchors the event to the period start directly. -/
def exC4GroupB : Group :=
  { id := 2, name := "g", description := "d", members := []
  , schedule := ⟨3, ⟨9, 0⟩⟩, currentIndex := 0, isActive := true }

/-- Counterexample for C4: the spec sentence about event timing is false
for a 09:30 schedule, where the built event ends thirty minutes after it
starts, and for a weekday-3 schedule, where the built event stays on the
period start date instead of moving two days forward. -/
theorem claim_C4_counterexample :
    ¬ eventSpecClaimed exC4GroupA 100 (buildEvent exC4GroupA 100)
    ∧ ¬ eventSpecClaimed exC4GroupB 100 (buildEvent exC4GroupB 100) := by
  decide

/-- C4 as amended. Every event built by createCalendarEvent starts on the
period start date itself, the scheduled day of week being ignored, at the
scheduled hour and minute; it ends on the same date at the next full hour
with minutes zeroed, which is one hour after the start exactly when the
scheduled minutes are zero; the reminders are fixed to one email
notification 1440 minutes before and one popup 60 minutes before; and a
successful createCalendarEvent call handed exactly this built event to the
external insert call. -/
theorem claim_C4_event_shape :
    ∀ (g : Group) (p : Nat),
      (buildEvent g p).startTime =
        { date := p, hour := g.schedule.timeOfDay.hour
        , minute := g.schedule.timeOfDay.minute }
      ∧ (buildEvent g p).endTime =
        { date := p, hour := g.schedule.timeOfDay.hour + 1, minute := 0 }
      ∧ (g.schedule.timeOfDay.minute = 0 →
          absMinutes (buildEvent g p).endTime = absMinutes (buildEvent g p).startTime + 60)
      ∧ (buildEvent g p).reminders = [⟨"email", 1440⟩, ⟨"popup", 60⟩]
      ∧ (∀ (env : Env) (d : Data) (uid gid : Nat) (d2 : Data) (eid : Nat) (g0 : Group),
          d.groups.find? (fun x => x.id == gid) = some g0 →
          createCalendarEvent env d uid gid p = (d2, Except.ok eid) →
          ∃ t, env.insertEvent t (buildEvent g0 p) = some eid) := by
  intro g p
  refine ⟨rfl, rfl, ?_, rfl, ?_⟩
  · intro hm
    simp [buildEvent, absMinutes, hm]
    ring
  · intro env d uid gid d2 eid g0 hg0 h
    rcases hu : d.users.find? (fun u => u.id == uid) with _ | user
    · simp [createCalendarEvent, hu] at h
    · rcases ht : user.googleTokens with _ | tokens
      · simp [createCalendarEvent, hu, ht] at h
      · by_cases hexp : tokens.expiry_date ≤ env.now
        · rcases hr : env.refresh tokens with _ | newTokens
          · simp [createCalendarEvent, hu, ht, hg0, hexp, hr] at h
          · rcases hi : env.insertEvent newTokens (buildEvent g0 p) with _ | e0
            · simp [createCalendarEvent, hu, ht, hg0, hexp, hr, hi] at h
            · refine ⟨newTokens, ?_⟩
              have h2 := h
              simp [createCalendarEvent, hu, ht, hg0, hexp, hr, hi] at h2
              rw [hi, h2.2]
        · rcases hi : env.insertEvent tokens (buildEvent g0 p) with _ | e0
          · simp [createCalendarEvent, hu, ht, hg0, hexp, hi] at h
          · refine ⟨tokens, ?_⟩
            have h2 := h
            simp [createCalendarEvent, hu, ht, hg0, hexp, hi] at h2
            rw [hi, h2.2]

/-- Group for the C4 witness, scheduled at a full hour. -/
def exC4WGroup : Group :=
  { id := 3, name := "g", description := "d", members := [⟨7, 0⟩]
  , schedule := ⟨1, ⟨9, 0⟩⟩, currentIndex := 0, isActive := true }

/-- User for the C4 witness with unexpired credentials. -/
def exC4WUser : User :=
  { id := 7, email := "e", name := "n", googleTokens := some ⟨1, 1000⟩ }

/-- Store for the C4 witness. -/
def exC4WData : Data :=
  { users := [exC4WUser], groups := [exC4WGroup], skipWeeks := [], rotations := [] }

/-- Environment for the C4 witness: insert always yields event id 55. -/
def exC4WEnv : Env :=
  { now := 10, refresh := fun _ => none
  , insertEvent := fun _ _ => some 55, deleteEvent := fun _ _ => some ()
  , freshId := fun i => i }

/-- Witness for C4: the amended event-shape theorem applied to the concrete
store, with the one-hour clause discharged at minutes zero and the insert
clause discharged on a successful concrete createCalendarEvent run. -/
theorem claim_C4_witness :
    exC4WGroup.schedule.timeOfDay.minute = 0
    ∧ exC4WData.groups.find? (fun x => x.id == 3) = some exC4WGroup
    ∧ createCalendarEvent exC4WEnv exC4WData 7 3 100 = (exC4WData, Except.ok 55)
    ∧ absMinutes (buildEvent exC4WGroup 100).endTime
        = absMinutes (buildEvent exC4WGroup 100).startTime + 60
    ∧ (∃ t, exC4WEnv.insertEvent t (buildEvent exC4WGroup 100) = some 55) :=
  ⟨rfl, rfl, by decide,
    (claim_C4_event_shape exC4WGroup 100).2.2.1 rfl,
    (claim_C4_event_shape exC4WGroup 100).2.2.2.2 exC4WEnv exC4WData 7 3
      exC4WData 55 exC4WGroup rfl (by decide)⟩

/-- C8. Both calendar calls fail with the unauthenticated error when the
user record is absent or carries no credentials and in that case leave the
store untouched; and when the credentials are present but expired,
createCalendarEvent first replaces them by the refreshed credentials in the
stored user list, keeps that replacement in the returned store whether or
not the insert call succeeds, and issues the insert call with the refreshed
credentials. -/
theorem claim_C8_credential_handling :
    (∀ (env : Env) (d : Data) (uid gid p : Nat),
      (d.users.find? (fun u => u.id == uid) = none
        ∨ ∃ u, d.users.find? (fun x => x.id == uid) = some u ∧ u.googleTokens = none) →
      createCalendarEvent env d uid gid p = (d, Except.error Err.notAuthenticated))
    ∧ (∀ (env : Env) (d : Data) (uid eid : Nat),
      (d.users.find? (fun u => u.id == uid) = none
        ∨ ∃ u, d.users.find? (fun x => x.id == uid) = some u ∧ u.googleTokens = none) →
      deleteCalendarEvent env d uid eid = (d, Except.error Err.notAuthenticated))
    ∧ (∀ (env : Env) (d : Data) (uid gid p : Nat) (u : User) (t t2 : Tokens) (g : Group),
      d.users.find? (fun x => x.id == uid) = some u →
      u.googleTokens = some t →
      d.groups.find? (fun x => x.id == gid) = some g →
      t.expiry_date ≤ env.now →
      env.refresh t = some t2 →
      createCalendarEvent env d uid gid p =
        (let d1 : Data :=
          { d with users := (updateFirst (fun x => x.id == uid) (setTokens t2) d.users) }
         match env.insertEvent t2 (buildEvent g p) with
         | none => (d1, Except.error Err.externalFailure)
         | some eid => (d1, Except.ok eid))) := by
  refine ⟨?_, ?_, ?_⟩
  · intro env d uid gid p h
    rcases h with h | ⟨u, hu, ht⟩
    · simp [createCalendarEvent, h]
    · simp [createCalendarEvent, hu, ht]
  · intro env d uid eid h
    rcases h with h | ⟨u, hu, ht⟩
    · simp [deleteCalendarEvent, h]
    · simp [deleteCalendarEvent, hu, ht]
  · intro env d uid gid p u t t2 g hu ht hg hexp hr
    rcases hi : env.insertEvent t2 (buildEvent g p) with _ | e0
    · simp [createCalendarEvent, hu, ht, hg, hexp, hr, hi]
    · simp [createCalendarEvent, hu, ht, hg, hexp, hr, hi]

/-- User for the C8 witness with expired credentials. -/
def exC8User : User :=
  { id := 7, email := "e", name := "n", googleTokens := some ⟨1, 1000⟩ }

/-- Group for the C8 witness. -/
def exC8Group : Group :=
  { id := 3, name := "g", description := "d", members := [⟨7, 0⟩]
  , schedule := ⟨1, ⟨9, 0⟩⟩, currentIndex := 0, isActive := true }

/-- Store for the C8 witness. -/
def exC8Data : Data :=
  { users := [exC8User], groups := [exC8Group], skipWeeks := [], rotations := [] }

/-- Environment for the C8 witness: the clock is past the expiry, refresh
yields new tokens, insert yields event id 77. -/
def exC8Env : Env :=
  { now := 2000, refresh := fun t => some ⟨t.accessToken + 1, 5000⟩
  , insertEvent := fun t _ => if t.accessToken == 2 then some 77 else none
  , deleteEvent := fun _ _ => some (), freshId := fun i => i }

/-- Witness for C8: the refresh clause applied to the concrete expired
store; the returned store carries the refreshed credentials and the insert
ran against them. -/
theorem claim_C8_witness :
    exC8Data.users.find? (fun x => x.id == 7) = some exC8User
    ∧ exC8User.googleTokens = some ⟨1, 1000⟩
    ∧ exC8Data.groups.find? (fun x => x.id == 3) = some exC8Group
    ∧ (1000 : Nat) ≤ exC8Env.now
    ∧ exC8Env.refresh ⟨1, 1000⟩ = some ⟨2, 5000⟩
    ∧ createCalendarEvent exC8Env exC8Data 7 3 100 =
        (let d1 : Data :=
          { exC8Data with
              users := (updateFirst (fun x => x.id == 7)
                (setTokens ⟨2, 5000⟩) exC8Data.users) }
         match exC8Env.insertEvent ⟨2, 5000⟩ (buildEvent exC8Group 100) with
         | none => (d1, Except.error Err.externalFailure)
         | some eid => (d1, Except.ok eid)) :=
  ⟨rfl, rfl, rfl, by decide, by decide,
    claim_C8_credential_handling.2.2 exC8Env exC8Data 7 3 100 exC8User
      ⟨1, 1000⟩ ⟨2, 5000⟩ exC8Group rfl rfl rfl (by decide) (by decide)⟩

/-- C5. Swap and cancel are atomic-or-nothing from the store point of view:
whenever either handler returns an error, of any kind and at any stage, the
rotation list of the returned store is exactly the input rotation list, so
the targeted rotation was neither modified nor removed. -/
theorem claim_C5_swap_cancel_atomic :
    (∀ (env : Env) (d : Data) (gid w fromUserId toUserId : Nat) (d2 : Data) (e : Err),
      swapHandler env d gid w fromUserId toUserId = (d2, Except.error e) →
      d2.rotations = d.rotations)
    ∧ (∀ (env : Env) (d : Data) (rid : Nat) (d2 : Data) (e : Err),
      cancelHandler env d rid = (d2, Except.error e) →
      d2.rotations = d.rotations) := by
  constructor
  · intro env d gid w fromUserId toUserId d2 e h
    simp only [swapHandler] at h
    split at h
    · injection h with h1 h2
      rw [← h1]
    · rename_i rot hf
      split at h
      · rename_i d1 e0 heq
        have hd1 : d1 = d := by
          split at heq
          · rename_i eid hev
            have hfst := delete_fst env d fromUserId eid
            rw [heq] at hfst
            exact hfst
          · injection heq with hq1 hq2
            exact hq1.symm
        injection h with h1 h2
        rw [← h1, hd1]
      · rename_i d1 u0 heq
        have hd1 : d1 = d := by
          split at heq
          · rename_i eid hev
            have hfst := delete_fst env d fromUserId eid
            rw [heq] at hfst
            exact hfst
          · injection heq with hq1 hq2
            exact hq1.symm
        split at h
        · rename_i dc ec heqc
          have hrc : dc.rotations = d1.rotations := by
            have hcr := create_rotations env d1 toUserId gid w
            rw [heqc] at hcr
            exact hcr
          injection h with h1 h2
          rw [← h1, hrc, hd1]
        · rename_i dc eidc heqc
          split at h
          · rename_i hnone
            rcases create_ok_user_find heqc with ⟨usr, husr⟩
            rw [husr] at hnone
            exact absurd hnone (by simp)
          · rename_i usr husr
            injection h with h1 h2
            cases h2
  · intro env d rid d2 e h
    simp only [cancelHandler] at h
    split at h
    · injection h with h1 h2
      rw [← h1]
    · rename_i rot hf
      split at h
      · rename_i d1 e0 heq
        have hd1 : d1 = d := by
          split at heq
          · rename_i eid hev
            have hfst := delete_fst env d rot.assignedUserId eid
            rw [heq] at hfst
            exact hfst
          · injection heq with hq1 hq2
            exact hq1.symm
        injection h with h1 h2
        rw [← h1, hd1]
      · rename_i d1 u0 heq
        injection h with h1 h2
        cases h2

/-- User from which the C5 witness swaps. -/
def exC5UserFrom : User :=
  { id := 10, email := "e", name := "n", googleTokens := some ⟨1, 9000⟩ }

/-- User to which the C5 witness swaps. -/
def exC5UserTo : User :=
  { id := 20, email := "e2", name := "n2", googleTokens := some ⟨2, 9000⟩ }

/-- The rotation targeted by the C5 witness swap. -/
def exC5Rot : Rotation :=
  { id := 9, groupId := 1, assignedUserId := 10, weekStartDate := 100
  , calendarEventId := some 5, status := "scheduled", createdAt := 0, swappedAt := none }

/-- Group for the C5 witness swap. -/
def exC5Group : Group :=
  { id := 1, name := "g", description := "d", members := [⟨10, 0⟩, ⟨20, 1⟩]
  , schedule := ⟨1, ⟨9, 0⟩⟩, currentIndex := 0, isActive := true }

/-- Store for the C5 witness. -/
def exC5Data : Data :=
  { users := [exC5UserFrom, exC5UserTo], groups := [exC5Group], skipWeeks := []
  , rotations := [exC5Rot] }

/-- Environment for the C5 witness: the old event deletes fine but every
insert fails, so the swap dies after the deletion step. -/
def exC5Env : Env :=
  { now := 500, refresh := fun _ => none, insertEvent := fun _ _ => none
  , deleteEvent := fun _ _ => some (), freshId := fun i => i }

/-- Witness for C5: a swap that fails while creating the replacement event
leaves the rotation list untouched. -/
theorem claim_C5_witness :
    swapHandler exC5Env exC5Data 1 100 10 20 = (exC5Data, Except.error Err.externalFailure)
    ∧ exC5Data.rotations = exC5Data.rotations :=
  ⟨by decide,
    claim_C5_swap_cancel_atomic.1 exC5Env exC5Data 1 100 10 20 exC5Data
      Err.externalFailure (by decide)⟩

/-- C6. A successful swap rewrites exactly the first rotation matching the
request, changing only its assignee, calendar event id and swap timestamp;
every rotation before it in the list does not match and is returned
unchanged, every rotation after it is returned unchanged, and the group
list, cursor included, and the skip list are returned unchanged. -/
theorem claim_C6_swap_frame :
    ∀ (env : Env) (d : Data) (gid w fromUserId toUserId : Nat) (d2 : Data) (rot2 : Rotation),
    swapHandler env d gid w fromUserId toUserId = (d2, Except.ok rot2) →
    d2.groups = d.groups ∧ d2.skipWeeks = d.skipWeeks ∧
    ∃ pre rot post eid,
      d.rotations = pre ++ rot :: post
      ∧ (∀ r ∈ pre, swapMatch gid w fromUserId r = false)
      ∧ swapMatch gid w fromUserId rot = true
      ∧ rot2 = { rot with assignedUserId := toUserId, calendarEventId := some eid, swappedAt := some env.now }
      ∧ d2.rotations = pre ++ rot2 :: post := by
  intro env d gid w fromUserId toUserId d2 rot2 h
  simp only [swapHandler] at h
  split at h
  · injection h with h1 h2
    cases h2
  · rename_i rot hf
    split at h
    · rename_i d1 e0 heq
      injection h with h1 h2
      cases h2
    · rename_i d1 u0 heq
      have hd1 : d1 = d := by
        split at heq
        · rename_i eid hev
          have hfst := delete_fst env d fromUserId eid
          rw [heq] at hfst
          exact hfst
        · injection heq with hq1 hq2
          exact hq1.symm
      split at h
      · rename_i dc ec heqc
        injection h with h1 h2
        cases h2
      · rename_i dc eidc heqc
        have hcg : dc.groups = d1.groups := by
          have hx := create_groups env d1 toUserId gid w
          rw [heqc] at hx
          exact hx
        have hcs : dc.skipWeeks = d1.skipWeeks := by
          have hx := create_skipWeeks env d1 toUserId gid w
          rw [heqc] at hx
          exact hx
        have hcr : dc.rotations = d1.rotations := by
          have hx := create_rotations env d1 toUserId gid w
          rw [heqc] at hx
          exact hx
        split at h
        · rename_i hnone
          injection h with h1 h2
          cases h2
        · rename_i usr husr
          injection h with h1 h2
          have hrot2 : rot2 = { rot with assignedUserId := toUserId, calendarEventId := some eidc, swappedAt := some env.now } := by
            injection h2 with h3
            exact h3.symm
          have hfd : d.rotations.find? (swapMatch gid w fromUserId) = some rot := hf
          rcases updateFirst_split
            (fun r => { r with assignedUserId := toUserId, calendarEventId := some eidc, swappedAt := some env.now }) hfd
            with ⟨pre, post, hsplit, hpre, hpx, hupd⟩
          refine ⟨?_, ?_, pre, rot, post, eidc, hsplit, hpre, hpx, hrot2, ?_⟩
          · rw [← h1]
            show dc.groups = d.groups
            rw [hcg, hd1]
          · rw [← h1]
            show dc.skipWeeks = d.skipWeeks
            rw [hcs, hd1]
          · rw [← h1]
            show updateFirst (swapMatch gid w fromUserId)
              (fun r => { r with assignedUserId := toUserId, calendarEventId := some eidc, swappedAt := some env.now })
              dc.rotations = pre ++ rot2 :: post
            rw [hcr, hd1, hupd, hrot2]

/-- Users, group, rotation and store for the C6 witness swap. -/
def exC6Data : Data :=
  { users := [⟨10, "e", "n", some ⟨1, 9000⟩⟩, ⟨20, "e2", "n2", some ⟨2, 9000⟩⟩]
  , groups := [⟨1, "g", "d", [⟨10, 0⟩, ⟨20, 1⟩], ⟨1, ⟨9, 0⟩⟩, 0, true⟩]
  , skipWeeks := []
  , rotations := [⟨9, 1, 10, 100, some 5, "scheduled", 0, none⟩] }

/-- Environment for the C6 witness: delete succeeds, insert yields 77. -/
def exC6Env : Env :=
  { now := 500, refresh := fun _ => none, insertEvent := fun _ _ => some 77
  , deleteEvent := fun _ _ => some (), freshId := fun i => i }

/-- The rotation as rewritten by the C6 witness swap. -/
def exC6Rot2 : Rotation :=
  { id := 9, groupId := 1, assignedUserId := 20, weekStartDate := 100
  , calendarEventId := some 77, status := "scheduled", createdAt := 0
  , swappedAt := some 500 }

/-- The store after the C6 witness swap. -/
def exC6DataAfter : Data :=
  { exC6Data with rotations := [exC6Rot2] }

/-- Witness for C6: a concrete successful swap rewrites exactly the one
targeted rotation and leaves groups and skips untouched. -/
theorem claim_C6_witness :
    swapHandler exC6Env exC6Data 1 100 10 20 = (exC6DataAfter, Except.ok exC6Rot2)
    ∧ (exC6DataAfter.groups = exC6Data.groups
      ∧ exC6DataAfter.skipWeeks = exC6Data.skipWeeks
      ∧ ∃ pre rot post eid,
          exC6Data.rotations = pre ++ rot :: post
          ∧ (∀ r ∈ pre, swapMatch 1 100 10 r = false)
          ∧ swapMatch 1 100 10 rot = true
          ∧ exC6Rot2 = { rot with assignedUserId := 20, calendarEventId := some eid, swappedAt := some exC6Env.now }
          ∧ exC6DataAfter.rotations = pre ++ exC6Rot2 :: post) :=
  ⟨by decide,
    claim_C6_swap_frame exC6Env exC6Data 1 100 10 20 exC6DataAfter exC6Rot2 (by decide)⟩

/-- C10. Whenever a swap returns an error, at any stage, including after
the old calendar event was already deleted, the returned store has the same
rotation list, group list (cursor included) and skip list as the input
store, and its user list is either unchanged or differs only by a refreshed
credential replacement for the new assignee performed inside the event
creation path. -/
theorem claim_C10_swap_failure_frame :
    ∀ (env : Env) (d : Data) (gid w fromUserId toUserId : Nat) (d2 : Data) (e : Err),
    swapHandler env d gid w fromUserId toUserId = (d2, Except.error e) →
    d2.rotations = d.rotations ∧ d2.groups = d.groups ∧ d2.skipWeeks = d.skipWeeks
    ∧ (d2.users = d.users
      ∨ ∃ t, d2.users = updateFirst (fun u => u.id == toUserId) (setTokens t) d.users) := by
  intro env d gid w fromUserId toUserId d2 e h
  simp only [swapHandler] at h
  split at h
  · injection h with h1 h2
    rw [← h1]
    exact ⟨rfl, rfl, rfl, Or.inl rfl⟩
  · rename_i rot hf
    split at h
    · rename_i d1 e0 heq
      have hd1 : d1 = d := by
        split at heq
        · rename_i eid hev
          have hfst := delete_fst env d fromUserId eid
          rw [heq] at hfst
          exact hfst
        · injection heq with hq1 hq2
          exact hq1.symm
      injection h with h1 h2
      rw [← h1, hd1]
      exact ⟨rfl, rfl, rfl, Or.inl rfl⟩
    · rename_i d1 u0 heq
      have hd1 : d1 = d := by
        split at heq
        · rename_i eid hev
          have hfst := delete_fst env d fromUserId eid
          rw [heq] at hfst
          exact hfst
        · injection heq with hq1 hq2
          exact hq1.symm
      split at h
      · rename_i dc ec heqc
        have hcg : dc.groups = d1.groups := by
          have hx := create_groups env d1 toUserId gid w
          rw [heqc] at hx
          exact hx
        have hcs : dc.skipWeeks = d1.skipWeeks := by
          have hx := create_skipWeeks env d1 toUserId gid w
          rw [heqc] at hx
          exact hx
        have hcr : dc.rotations = d1.rotations := by
          have hx := create_rotations env d1 toUserId gid w
          rw [heqc] at hx
          exact hx
        have hcu := create_users_cases env d1 toUserId gid w
        rw [heqc] at hcu
        injection h with h1 h2
        rw [← h1]
        refine ⟨by rw [hcr, hd1], by rw [hcg, hd1], by rw [hcs, hd1], ?_⟩
        rw [hd1] at hcu
        exact hcu
      · rename_i dc eidc heqc
        split at h
        · rename_i hnone
          rcases create_ok_user_find heqc with ⟨usr, husr⟩
          rw [husr] at hnone
          exact absurd hnone (by simp)
        · rename_i usr husr
          injection h with h1 h2
          cases h2

/-- From-user, expired to-user, group, rotation and store for the C10
witness swap. -/
def exC10Data : Data :=
  { users := [⟨10, "e", "n", some ⟨1, 9000⟩⟩, ⟨20, "e2", "n2", some ⟨2, 1000⟩⟩]
  , groups := [⟨1, "g", "d", [⟨10, 0⟩, ⟨20, 1⟩], ⟨1, ⟨9, 0⟩⟩, 0, true⟩]
  , skipWeeks := []
  , rotations := [⟨9, 1, 10, 100, some 5, "scheduled", 0, none⟩] }

/-- Environment for the C10 witness: the clock is past the to-user expiry,
refresh succeeds, the delete of the old event succeeds, but every insert
fails, so the swap dies after deleting the old event and refreshing. -/
def exC10Env : Env :=
  { now := 5000, refresh := fun t => some ⟨t.accessToken + 10, 9999⟩
  , insertEvent := fun _ _ => none, deleteEvent := fun _ _ => some ()
  , freshId := fun i => i }

/-- The store after the failed C10 witness swap: only the to-user
credentials were replaced. -/
def exC10DataAfter : Data :=
  { exC10Data with
      users := [⟨10, "e", "n", some ⟨1, 9000⟩⟩, ⟨20, "e2", "n2", some ⟨12, 9999⟩⟩] }

/-- Witness for C10: a swap failing at event creation after the old event
was deleted leaves rotations, groups and skips unchanged and only replaces
the new assignee credentials. -/
theorem claim_C10_witness :
    swapHandler exC10Env exC10Data 1 100 10 20 =
      (exC10DataAfter, Except.error Err.externalFailure)
    ∧ (exC10DataAfter.rotations = exC10Data.rotations
      ∧ exC10DataAfter.groups = exC10Data.groups
      ∧ exC10DataAfter.skipWeeks = exC10Data.skipWeeks
      ∧ (exC10DataAfter.users = exC10Data.users
        ∨ ∃ t, exC10DataAfter.users =
            updateFirst (fun u => u.id == 20) (setTokens t) exC10Data.users)) :=
  ⟨by decide,
    claim_C10_swap_failure_frame exC10Env exC10Data 1 100 10 20 exC10DataAfter
      Err.externalFailure (by decide)⟩

theorem foldDelete_eq (env : Env) (uid : Nat) :
    ∀ (l : List Rotation) (d : Data),
    l.foldl (fun dd r =>
      match r.calendarEventId with
      | some eid => (deleteCalendarEvent env dd uid eid).1
      | none => dd) d = d := by
  intro l
  induction l with
  | nil => intro d; rfl
  | cons r rs ih =>
    intro d
    have hf : (match r.calendarEventId with
      | some eid => (deleteCalendarEvent env d uid eid).1
      | none => d) = d := by
      rcases hev : r.calendarEventId with _ | eid
      · rfl
      · exact delete_fst env d uid eid
    simp only [List.foldl_cons]
    rw [hf]
    exact ih d

/-- C7. Removing a member removes from the store exactly the rotations of
that group assigned to that user whose period anchor is not before the
injected current instant, leaving past rotations assigned to the user and
all unrelated rotations in place; the outcome is the same for every
environment, in particular whatever the per-event calendar delete calls
return, and the reported count is the number of matched future rotations. -/
theorem claim_C7_member_removal :
    ∀ (env : Env) (d : Data) (gid uid : Nat) (g : Group) (usr : User),
    d.groups.find? (fun x => x.id == gid) = some g →
    d.users.find? (fun x => x.id == uid) = some usr →
    removeMemberHandler env d gid uid =
      ({ d with
          groups := (updateFirst (fun x => x.id == gid)
            (fun x => { x with members := x.members.filter (fun m => !(m.userId == uid)) })
            d.groups)
        , rotations := d.rotations.filter (fun r => !(futureMatch env gid uid r)) },
       Except.ok (d.rotations.filter (futureMatch env gid uid)).length) := by
  intro env d gid uid g usr hg hu
  simp only [removeMemberHandler, hg]
  rw [foldDelete_eq]
  simp [hu]

/-- Store for the C7 witness: one past and one future rotation of the
removed member in the group, one future rotation of the member in another
group, one future rotation of another member in the group. -/
def exC7Data : Data :=
  { users := [⟨20, "e", "n", some ⟨1, 9000⟩⟩]
  , groups := [⟨1, "g", "d", [⟨20, 0⟩, ⟨30, 1⟩], ⟨1, ⟨9, 0⟩⟩, 0, true⟩]
  , skipWeeks := []
  , rotations :=
      [ ⟨1, 1, 20, 50, some 5, "scheduled", 0, none⟩
      , ⟨2, 1, 20, 200, some 6, "scheduled", 0, none⟩
      , ⟨3, 2, 20, 200, some 7, "scheduled", 0, none⟩
      , ⟨4, 1, 30, 200, some 8, "scheduled", 0, none⟩ ] }

/-- Environment for the C7 witness: the clock sits between the past and
future rotations and every calendar delete fails. -/
def exC7Env : Env :=
  { now := 100, refresh := fun _ => none, insertEvent := fun _ _ => none
  , deleteEvent := fun _ _ => none, freshId := fun i => i }

/-- Witness for C7: removing member 20 from group 1 removes exactly the one
matched future rotation, reports count one, and does so although every
calendar delete failed. -/
theorem claim_C7_witness :
    exC7Data.groups.find? (fun x => x.id == 1) =
      some ⟨1, "g", "d", [⟨20, 0⟩, ⟨30, 1⟩], ⟨1, ⟨9, 0⟩⟩, 0, true⟩
    ∧ exC7Data.users.find? (fun x => x.id == 20) =
      some ⟨20, "e", "n", some ⟨1, 9000⟩⟩
    ∧ removeMemberHandler exC7Env exC7Data 1 20 =
      ({ exC7Data with
          groups := (updateFirst (fun x => x.id == 1)
            (fun x => { x with members := x.members.filter (fun m => !(m.userId == 20)) })
            exC7Data.groups)
        , rotations := exC7Data.rotations.filter (fun r => !(futureMatch exC7Env 1 20 r)) },
       Except.ok (exC7Data.rotations.filter (futureMatch exC7Env 1 20)).length)
    ∧ (exC7Data.rotations.filter (futureMatch exC7Env 1 20)).length = 1 :=
  ⟨rfl, rfl,
    claim_C7_member_removal exC7Env exC7Data 1 20
      ⟨1, "g", "d", [⟨20, 0⟩, ⟨30, 1⟩], ⟨1, ⟨9, 0⟩⟩, 0, true⟩
      ⟨20, "e", "n", some ⟨1, 9000⟩⟩ rfl rfl,
    by decide⟩

theorem oneIter_some_decomp {env : Env} {gid startDate i : Nat} {d d1 : Data}
    (h : oneIter env gid startDate i d = some d1) :
    ∃ da uid db eid,
      getNextRotationAssignment d gid (addWeeks startDate i) = (da, Except.ok uid)
      ∧ createCalendarEvent env da uid gid (addWeeks startDate i) = (db, Except.ok eid)
      ∧ d1 = { db with rotations :=
          db.rotations ++ [mkRotation env i gid uid (addWeeks startDate i) eid] } := by
  simp only [oneIter] at h
  split at h
  · cases h
  · rename_i da uid hga
    split at h
    · cases h
    · rename_i db eid hc
      injection h with h1
      exact ⟨da, uid, db, eid, hga, hc, h1.symm⟩

theorem runIters_rotations {env : Env} {gid startDate : Nat} :
    ∀ (k i : Nat) (d dk : Data),
    runIters env gid startDate i k d = some dk →
    ∃ newRots, dk.rotations = d.rotations ++ newRots ∧ newRots.length = k := by
  intro k
  induction k with
  | zero =>
    intro i d dk h
    simp only [runIters] at h
    injection h with h1
    exact ⟨[], by simp [h1], rfl⟩
  | succ k ih =>
    intro i d dk h
    simp only [runIters] at h
    split at h
    · cases h
    · rename_i d1 h1
      rcases oneIter_some_decomp h1 with ⟨da, uid, db, eid, hga, hc, hd1⟩
      have hda : da.rotations = d.rotations := by
        have hx := getNext_rotations d gid (addWeeks startDate i)
        rw [hga] at hx
        exact hx
      have hdb : db.rotations = da.rotations := by
        have hx := create_rotations env da uid gid (addWeeks startDate i)
        rw [hc] at hx
        exact hx
      rcases ih (i + 1) d1 dk h with ⟨nr, hnr, hlen⟩
      refine ⟨mkRotation env i gid uid (addWeeks startDate i) eid :: nr, ?_, by simp [hlen]⟩
      rw [hnr, hd1]
      show db.rotations ++ [mkRotation env i gid uid (addWeeks startDate i) eid] ++ nr
        = d.rotations ++ (mkRotation env i gid uid (addWeeks startDate i) eid :: nr)
      rw [hdb, hda, List.append_assoc]
      rfl

theorem triggerLoop_shift {env : Env} {gid startDate : Nat} :
    ∀ (k i : Nat) (d : Data) (acc : List Rotation) (dk : Data),
    runIters env gid startDate i k d = some dk →
    ∀ rem, ∃ acc2,
      triggerLoop env gid startDate i (k + rem) d acc =
        triggerLoop env gid startDate (i + k) rem dk acc2 := by
  intro k
  induction k with
  | zero =>
    intro i d acc dk h rem
    simp only [runIters] at h
    injection h with h1
    rw [h1]
    exact ⟨acc, by simp⟩
  | succ k ih =>
    intro i d acc dk h rem
    simp only [runIters] at h
    split at h
    · cases h
    · rename_i d1 h1
      rcases oneIter_some_decomp h1 with ⟨da, uid, db, eid, hga, hc, hd1⟩
      have hstep : triggerLoop env gid startDate i (k + 1 + rem) d acc =
          triggerLoop env gid startDate (i + 1) (k + rem) d1
            (mkRotation env i gid uid (addWeeks startDate i) eid :: acc) := by
        have harith : k + 1 + rem = (k + rem) + 1 := by omega
        rw [harith]
        simp only [triggerLoop, hga, hc]
        rw [hd1]
      rcases ih (i + 1) d1
        (mkRotation env i gid uid (addWeeks startDate i) eid :: acc) dk h rem
        with ⟨acc2, hrest⟩
      refine ⟨acc2, ?_⟩
      rw [hstep, hrest]
      have harith2 : i + 1 + k = i + (k + 1) := by omega
      rw [harith2]

/-- C3. The batch trigger is not transactional across iterations: if the
first k iterations succeed and iteration k then fails in the calendar call,
the handler returns that failure together with the store as mutated by the
k completed iterations, which have already appended their k rotations, plus
the cursor advance of the failing iteration, with no rollback and with no
rotation appended for the failing iteration; and if iteration k fails in
the selector itself, the handler returns the failure with the store exactly
as the k completed iterations left it, attempting nothing further. -/
theorem claim_C3_batch_not_transactional :
    ∀ (env : Env) (d : Data) (gid numWeeks startDate k : Nat) (dk : Data),
    k < numWeeks →
    runIters env gid startDate 0 k d = some dk →
    (∃ newRots, dk.rotations = d.rotations ++ newRots ∧ newRots.length = k)
    ∧ (∀ e, (getNextRotationAssignment dk gid (addWeeks startDate k)).2 = Except.error e →
        triggerHandler env d gid numWeeks startDate = (dk, Except.error e))
    ∧ (∀ (d1 : Data) (uid : Nat) (d2 : Data) (e : Err),
        getNextRotationAssignment dk gid (addWeeks startDate k) = (d1, Except.ok uid) →
        createCalendarEvent env d1 uid gid (addWeeks startDate k) = (d2, Except.error e) →
        triggerHandler env d gid numWeeks startDate = (d2, Except.error e)
        ∧ d2.rotations = dk.rotations) := by
  intro env d gid numWeeks startDate k dk hk hrun
  have hnw : numWeeks = k + (numWeeks - k - 1 + 1) := by omega
  rcases triggerLoop_shift k 0 d [] dk hrun (numWeeks - k - 1 + 1) with ⟨acc2, hshift⟩
  have hth : triggerHandler env d gid numWeeks startDate =
      triggerLoop env gid startDate k (numWeeks - k - 1 + 1) dk acc2 := by
    show triggerLoop env gid startDate 0 numWeeks d [] =
      triggerLoop env gid startDate k (numWeeks - k - 1 + 1) dk acc2
    rw [hnw, hshift]
    simp
  refine ⟨runIters_rotations k 0 d dk hrun, ?_, ?_⟩
  · intro e hsel
    rcases hget : getNextRotationAssignment dk gid (addWeeks startDate k) with ⟨da, ra⟩
    have hra : ra = Except.error e := by
      rw [hget] at hsel
      exact hsel
    have hda : da = dk := by
      have hsel2 : (getNextRotationAssignment dk gid (addWeeks startDate k)).2
          = Except.error e := by
        rw [hget, hra]
      have hx := getNext_error_fst hsel2
      rw [hget] at hx
      exact hx
    rw [hth]
    simp only [triggerLoop, hget, hra]
    rw [hda]
  · intro d1 uid d2 e hget hc
    have hd1rot : d1.rotations = dk.rotations := by
      have hx := getNext_rotations dk gid (addWeeks startDate k)
      rw [hget] at hx
      exact hx
    have hd2rot : d2.rotations = d1.rotations := by
      have hx := create_rotations env d1 uid gid (addWeeks startDate k)
      rw [hc] at hx
      exact hx
    refine ⟨?_, by rw [hd2rot, hd1rot]⟩
    rw [hth]
    simp only [triggerLoop, hget, hc]

/-- Store for the C3 witness: one authenticated member in one group. -/
def exC3Data : Data :=
  { users := [⟨10, "e", "n", some ⟨1, 9999⟩⟩]
  , groups := [⟨1, "g", "d", [⟨10, 0⟩], ⟨1, ⟨9, 0⟩⟩, 0, true⟩]
  , skipWeeks := [], rotations := [] }

/-- Environment for the C3 witness: the insert call succeeds only for the
first period date, so the second batch iteration fails in the calendar. -/
def exC3Env : Env :=
  { now := 500, refresh := fun _ => none
  , insertEvent := fun _ ev => if ev.startTime.date == 100 then some 50 else none
  , deleteEvent := fun _ _ => some (), freshId := fun i => 1000 + i }

/-- The store after the one successful batch iteration of the C3 witness. -/
def exC3Dk : Data :=
  { exC3Data with rotations := [⟨1000, 1, 10, 100, some 50, "scheduled", 500, none⟩] }

/-- Witness for C3: a two-week batch whose second iteration fails in the
calendar call reports the failure while keeping the rotation created by the
first iteration. -/
theorem claim_C3_witness :
    (1 : Nat) < 2
    ∧ runIters exC3Env 1 100 0 1 exC3Data = some exC3Dk
    ∧ getNextRotationAssignment exC3Dk 1 (addWeeks 100 1) = (exC3Dk, Except.ok 10)
    ∧ createCalendarEvent exC3Env exC3Dk 10 1 (addWeeks 100 1)
        = (exC3Dk, Except.error Err.externalFailure)
    ∧ (triggerHandler exC3Env exC3Data 1 2 100 = (exC3Dk, Except.error Err.externalFailure)
        ∧ exC3Dk.rotations = exC3Dk.rotations) :=
  ⟨by decide, by decide, by decide, by decide,
    (claim_C3_batch_not_transactional exC3Env exC3Data 1 2 100 1 exC3Dk (by decide)
      (by decide)).2.2 exC3Dk 10 exC3Dk Err.externalFailure (by decide) (by decide)⟩

end CTR
